import Mathlib

/-!
Verification of the FrameLeap versioned artifact store
(`src/frameleap/utils/artifact_store.py` together with the data model in
`src/frameleap/models/version.py`).

The embedding models the persistent state of one `ArtifactStore` instance:
the in-memory `Project` record (mirrored to `project.json`), the `nodes/`
directory as an association list from node id to `VersionNode`, and the
`artifacts/` directory as an association list from artifact id to the
stored bundle.  Wall-clock timestamps (`created_at`, `updated_at`) and the
randomly generated uuid of an `ArtifactMetadata` record are omitted: no
verified property depends on them.  Freshly generated node uuids are passed
in explicitly as a `newId` argument so that statements can quantify over
them.  The SHA-256 digest used by `_compute_hash` is modelled as an
arbitrary function `String → String` applied to the canonical
serialization, which is exactly the structure of the Python code
(`hashlib.sha256(content.encode()).hexdigest()` applied to
`json.dumps(data, sort_keys=True, default=str)`); every theorem below holds
for every choice of that function.
-/

/-- JSON-like values, the payloads accepted by `save_artifact` /
`_compute_hash` (`json.dumps`-serializable data).  Objects carry their
key-value pairs in insertion order, as Python dicts do. -/
inductive JVal where
  | null : JVal
  | bool : Bool → JVal
  | num : Int → JVal
  | str : String → JVal
  | arr : List JVal → JVal
  | obj : List (String × JVal) → JVal
deriving Repr

/-- Decidable equality for `JVal` (needed so concrete witnesses can be
checked by `decide`). -/
def JVal.beq : JVal → JVal → Bool
  | .null, .null => true
  | .bool a, .bool b => a == b
  | .num a, .num b => a == b
  | .str a, .str b => a == b
  | .arr xs, .arr ys => beqList xs ys
  | .obj xs, .obj ys => beqPairs xs ys
  | _, _ => false
where
  beqList : List JVal → List JVal → Bool
    | [], [] => true
    | x :: xs, y :: ys => JVal.beq x y && beqList xs ys
    | _, _ => false
  beqPairs : List (String × JVal) → List (String × JVal) → Bool
    | [], [] => true
    | (k, v) :: xs, (l, w) :: ys => k == l && JVal.beq v w && beqPairs xs ys
    | _, _ => false

mutual
theorem JVal.beq_refl : (v : JVal) → JVal.beq v v = true
  | .null => rfl
  | .bool b => by simp [JVal.beq]
  | .num n => by simp [JVal.beq]
  | .str s => by simp [JVal.beq]
  | .arr xs => by simp [JVal.beq, JVal.beqList_refl xs]
  | .obj kvs => by simp [JVal.beq, JVal.beqPairs_refl kvs]

theorem JVal.beqList_refl : (xs : List JVal) → JVal.beq.beqList xs xs = true
  | [] => rfl
  | x :: xs => by simp [JVal.beq.beqList, JVal.beq_refl x, JVal.beqList_refl xs]

theorem JVal.beqPairs_refl : (kvs : List (String × JVal)) → JVal.beq.beqPairs kvs kvs = true
  | [] => rfl
  | (k, v) :: kvs => by
      simp [JVal.beq.beqPairs, JVal.beq_refl v, JVal.beqPairs_refl kvs]
end

mutual
theorem JVal.eq_of_beq : (v w : JVal) → JVal.beq v w = true → v = w
  | .null, .null, _ => rfl
  | .bool _, .bool _, h => by simpa [JVal.beq] using h
  | .num _, .num _, h => by simpa [JVal.beq] using h
  | .str _, .str _, h => by simpa [JVal.beq] using h
  | .arr xs, .arr ys, h => by
      simp only [JVal.beq] at h
      exact congrArg JVal.arr (JVal.eqList_of_beq xs ys h)
  | .obj xs, .obj ys, h => by
      simp only [JVal.beq] at h
      exact congrArg JVal.obj (JVal.eqPairs_of_beq xs ys h)

theorem JVal.eqList_of_beq : (xs ys : List JVal) → JVal.beq.beqList xs ys = true → xs = ys
  | [], [], _ => rfl
  | [], _ :: _, h => by simp [JVal.beq.beqList] at h
  | _ :: _, [], h => by simp [JVal.beq.beqList] at h
  | x :: xs, y :: ys, h => by
      simp only [JVal.beq.beqList, Bool.and_eq_true] at h
      rw [JVal.eq_of_beq x y h.1, JVal.eqList_of_beq xs ys h.2]

theorem JVal.eqPairs_of_beq :
    (xs ys : List (String × JVal)) → JVal.beq.beqPairs xs ys = true → xs = ys
  | [], [], _ => rfl
  | [], _ :: _, h => by simp [JVal.beq.beqPairs] at h
  | (_, _) :: _, [], h => by simp [JVal.beq.beqPairs] at h
  | (k, v) :: xs, (l, w) :: ys, h => by
      simp only [JVal.beq.beqPairs, Bool.and_eq_true, beq_iff_eq] at h
      rw [h.1.1, JVal.eq_of_beq v w h.1.2, JVal.eqPairs_of_beq xs ys h.2]
end

instance : DecidableEq JVal := fun v w =>
  if h : JVal.beq v w = true then
    isTrue (JVal.eq_of_beq v w h)
  else
    isFalse (fun he => h (he ▸ JVal.beq_refl v))

/-- Escaping of a string for JSON output, as `json.dumps` does for the
backslash and quote characters (escapes of ASCII control characters and the
`ensure_ascii` escapes of non-ASCII characters do not occur in the data of
any statement below and only the determinism of the escaping matters). -/
def jsonEscapeChar (c : Char) : String :=
  if c = '\\' then "\\\\" else if c = '\"' then "\\\"" else String.singleton c

def jsonEscape (s : String) : String :=
  String.join (s.toList.map jsonEscapeChar)

def jsonQuote (s : String) : String :=
  "\"" ++ jsonEscape s ++ "\""

/-- Join rendered items with the default `json.dumps` item separator. -/
def joinComma : List String → String
  | [] => ""
  | [x] => x
  | x :: xs => x ++ ", " ++ joinComma xs

/-- Sort rendered key/value pairs by key, which is what
`json.dumps(..., sort_keys=True)` does to each mapping. -/
def sortPairs (kvs : List (String × String)) : List (String × String) :=
  List.insertionSort (fun a b => a.1 ≤ b.1) kvs

def renderPair (kv : String × String) : String :=
  jsonQuote kv.1 ++ ": " ++ kv.2

mutual
/-- The serialization `json.dumps(data, sort_keys=True, default=str)` used by
`_compute_hash`: every mapping is serialized with its keys sorted, so the
output is independent of insertion order. -/
def dumps : JVal → String
  | .null => "null"
  | .bool true => "true"
  | .bool false => "false"
  | .num n => toString n
  | .str s => jsonQuote s
  | .arr xs => "[" ++ joinComma (renderList xs) ++ "]"
  | .obj kvs => "\x7b" ++ joinComma ((sortPairs (renderPairs kvs)).map renderPair) ++ "\x7d"

def renderList : List JVal → List String
  | [] => []
  | x :: xs => dumps x :: renderList xs

def renderPairs : List (String × JVal) → List (String × String)
  | [] => []
  | (k, v) :: kvs => (k, dumps v) :: renderPairs kvs
end

/-- The `StageType` enum from `models/version.py` (a closed string-valued enum). -/
inductive StageType where
  | input | script | descr | image | storyboard | animation | audio | subtitle | compose | output
deriving DecidableEq, Repr

/-- The `.value` string of each stage tag. -/
def StageType.val : StageType → String
  | .input => "input"
  | .script => "script"
  | .descr => "description"
  | .image => "image"
  | .storyboard => "storyboard"
  | .animation => "animation"
  | .audio => "audio"
  | .subtitle => "subtitle"
  | .compose => "compose"
  | .output => "output"

/-- The `ArtifactStatus` enum from `models/version.py`. -/
inductive ArtifactStatus where
  | pending | generating | completed | failed | cached
deriving DecidableEq, Repr

/-- The `VersionNode` record from `models/version.py`.  The wall-clock fields
`created_at` / `updated_at` are omitted (no verified property reads them). -/
structure VersionNode where
  id : String
  project_id : String
  parent_id : Option String
  branch_name : String
  version : String
  commit_message : String
  stage : StageType
  stage_index : Int
  artifact_path : Option String
  status : ArtifactStatus
  metadata : List (String × JVal)
  input_hash : Option String
deriving DecidableEq, Repr

/-- The `ArtifactMetadata` record from `models/version.py`.  The randomly generated
`id` uuid and the `created_at` timestamp are omitted. -/
structure ArtifactMetadata where
  node_id : String
  stage : StageType
  artifact_type : String
  file_path : String
  file_size : Nat
  summary : String
  preview_path : Option String
  dependencies : List String
deriving DecidableEq, Repr

/-- The `Project` record from `models/version.py` (timestamps omitted).  `branches` is
a Python dict `branch_name -> node_id`, modelled as an association list in
insertion order. -/
structure Project where
  id : String
  name : String
  description : String
  root_node_id : String
  current_node_id : String
  node_ids : List String
  branches : List (String × String)
  settings : List (String × JVal)
deriving DecidableEq, Repr

/-- One artifact bundle under `artifacts/{artifact_id}/`: the `data.json`
payload, the optional `preview.png` bytes, and the `meta.json` record. -/
structure ArtifactRecord where
  data : JVal
  preview : Option String
  meta : ArtifactMetadata
deriving DecidableEq, Repr

/-- The persistent state of one `ArtifactStore`: the project record plus
the `nodes/` and `artifacts/` directories, each modelled as an association
list keyed by file name. -/
structure StoreState where
  project_id : String
  artifacts_dir : String
  project : Project
  nodes : List (String × VersionNode)
  artifacts : List (String × ArtifactRecord)
deriving DecidableEq, Repr

/-- First-match lookup in an association list (a keyed file directory /
Python dict read). -/
def lookupKV {α : Type} (k : String) : List (String × α) → Option α
  | [] => none
  | (l, v) :: rest => if l = k then some v else lookupKV k rest

/-- Python dict write `d[k] = v` / overwriting a keyed file: an existing
key keeps its position and gets the new value, a new key is appended. -/
def insertKV {α : Type} (k : String) (v : α) : List (String × α) → List (String × α)
  | [] => [(k, v)]
  | (l, w) :: rest => if l = k then (l, v) :: rest else (l, w) :: insertKV k v rest

theorem lookupKV_insertKV_self {α : Type} (k : String) (v : α) :
    (l : List (String × α)) → lookupKV k (insertKV k v l) = some v
  | [] => by simp [insertKV, lookupKV]
  | (m, w) :: rest => by
      by_cases h : m = k
      · simp [insertKV, lookupKV, h]
      · simp [insertKV, lookupKV, h, lookupKV_insertKV_self k v rest]

theorem lookupKV_insertKV_ne {α : Type} (k j : String) (v : α) (hne : j ≠ k) :
    (l : List (String × α)) → lookupKV j (insertKV k v l) = lookupKV j l
  | [] => by simp [insertKV, lookupKV, if_neg (Ne.symm hne)]
  | (m, w) :: rest => by
      by_cases h : m = k
      · subst h
        simp [insertKV, lookupKV, if_neg (Ne.symm hne)]
      · simp only [insertKV, if_neg h, lookupKV]
        by_cases h2 : m = j
        · simp [h2]
        · simp [h2, lookupKV_insertKV_ne k j v hne rest]

/-- Operation `ArtifactStore.get_node`: read the node file of the id, `None` when the
file does not exist. -/
def get_node (s : StoreState) (node_id : String) : Option VersionNode :=
  lookupKV node_id s.nodes

/-- Operation `ArtifactStore._save_node`: write the node file under the node id
(keyed by the node's own `id` field). -/
def save_node (s : StoreState) (n : VersionNode) : StoreState :=
  { s with nodes := insertKV n.id n s.nodes }

/-- Operation `ArtifactStore._save_project` (the timestamp update is omitted from
the model). -/
def save_project (s : StoreState) (p : Project) : StoreState :=
  { s with project := p }

/-- The Python truthiness test `if current.parent_id:` used by
`get_node_history`: a parent pointer is followed only when it is neither
`None` nor the empty string. -/
def truthyParent (n : VersionNode) : Option String :=
  match n.parent_id with
  | some p => if p = "" then none else some p
  | none => none

/-- The `while current:` loop of `ArtifactStore.get_node_history`, with an
explicit fuel bound: `none` means the loop has not finished within `fuel`
iterations.  The accumulator is built root-last-first, so it already holds
`list(reversed(history))` when the loop exits. -/
def historyLoop (s : StoreState) : Nat → Option VersionNode → List VersionNode →
    Option (List VersionNode)
  | _, none, acc => some acc
  | 0, some _, _ => none
  | fuel + 1, some cur, acc =>
      match truthyParent cur with
      | some p => historyLoop s fuel (get_node s p) (cur :: acc)
      | none => some (cur :: acc)

/-- Operation `ArtifactStore.get_node_history` under a fuel bound. -/
def get_node_history (s : StoreState) (node_id : String) (fuel : Nat) :
    Option (List VersionNode) :=
  historyLoop s fuel (get_node s node_id) []

/-- Operation `ArtifactStore.create_node`.  The freshly generated uuid of the new
node is passed in as `newId`. -/
def create_node (s : StoreState) (stage : StageType) (stage_index : Int)
    (parent_id : Option String) (branch_name : String) (commit_message : String)
    (input_hash : Option String) (metadata : List (String × JVal)) (newId : String) :
    VersionNode × StoreState :=
  let node : VersionNode :=
    { id := newId
      project_id := s.project_id
      parent_id := parent_id
      branch_name := branch_name
      version := "1.0.0"
      commit_message := commit_message
      stage := stage
      stage_index := stage_index
      artifact_path := none
      status := ArtifactStatus.pending
      metadata := metadata
      input_hash := input_hash }
  let s := save_node s node
  let p := s.project
  let p := { p with node_ids := p.node_ids ++ [node.id] }
  let p := if p.root_node_id = "" then { p with root_node_id := node.id } else p
  let p := { p with current_node_id := node.id }
  let p := { p with branches := insertKV branch_name node.id p.branches }
  (node, save_project s p)

/-- Operation `ArtifactStore.create_branch`.  Raises `ValueError` (modelled as
`Except.error`) when the source node does not resolve; otherwise creates a
child of `from_node_id` copying its stage, stage index, artifact reference,
status and input hash.  `newId` is the freshly generated uuid. -/
def create_branch (s : StoreState) (from_node_id : String) (branch_name : String)
    (commit_message : String) (newId : String) :
    Except String (VersionNode × StoreState) :=
  match get_node s from_node_id with
  | none => Except.error ("source node does not exist: " ++ from_node_id)
  | some from_node =>
      let new_node : VersionNode :=
        { id := newId
          project_id := s.project_id
          parent_id := some from_node_id
          branch_name := branch_name
          version := "1.0.0"
          commit_message := commit_message
          stage := from_node.stage
          stage_index := from_node.stage_index
          artifact_path := from_node.artifact_path
          status := from_node.status
          metadata := from_node.metadata
          input_hash := from_node.input_hash }
      let s := save_node s new_node
      let p := s.project
      let p := { p with node_ids := p.node_ids ++ [new_node.id] }
      let p := { p with branches := insertKV branch_name new_node.id p.branches }
      Except.ok (new_node, save_project s p)

/-- Operation `ArtifactStore._compute_hash`: the digest (`h`, standing for SHA-256
hex) of `json.dumps(data, sort_keys=True, default=str)`. -/
def compute_hash (h : String → String) (data : JVal) : String :=
  h (dumps data)

/-- The derived artifact id
`f"{stage.value}_{artifact_type}_{content_hash[:16]}"`. -/
def artifact_id_of (h : String → String) (stage : StageType) (artifact_type : String)
    (data : JVal) : String :=
  stage.val ++ "_" ++ artifact_type ++ "_" ++ (compute_hash h data).take 16

/-- The path `str(artifacts_dir / artifact_id / "data.json")` recorded as
the metadata's `file_path` (the storage location of the artifact). -/
def data_file_of (s : StoreState) (aid : String) : String :=
  s.artifacts_dir ++ "/" ++ aid ++ "/data.json"

/-- Operation `ArtifactStore.save_artifact`.  Writes the artifact bundle under the
content-derived id, records the metadata, and — only when `node_id`
resolves — unconditionally points the node at the new artifact and marks it
Completed, writing it back under its own `id` field.  The `data.json` byte
size is modelled as the length of the canonical serialization (the exact
on-disk pretty-printing layout is not read by any verified property). -/
def save_artifact (h : String → String) (s : StoreState) (node_id : String)
    (stage : StageType) (artifact_type : String) (data : JVal) (summary : String)
    (preview_data : Option String) (dependencies : Option (List String)) :
    ArtifactMetadata × StoreState :=
  let artifact_id := artifact_id_of h stage artifact_type data
  let data_file := data_file_of s artifact_id
  let preview_ok : Bool := match preview_data with
    | some p => p != ""
    | none => false
  let preview_path := if preview_ok
    then some (s.artifacts_dir ++ "/" ++ artifact_id ++ "/preview.png")
    else none
  let md : ArtifactMetadata :=
    { node_id := node_id
      stage := stage
      artifact_type := artifact_type
      file_path := data_file
      file_size := (dumps data).length
      summary := summary
      preview_path := preview_path
      dependencies := dependencies.getD [] }
  let record : ArtifactRecord :=
    { data := data
      preview := if preview_ok then preview_data else none
      meta := md }
  let s := { s with artifacts := insertKV artifact_id record s.artifacts }
  let s := match get_node s node_id with
    | some node =>
        save_node s { node with artifact_path := some artifact_id
                                status := ArtifactStatus.completed }
    | none => s
  (md, s)

/-- The claimed Project invariant, checked position by position over
`node_ids`: each listed id resolves to a node whose own `id` matches, whose
`parent_id` is `None` only when the node is the root, and whose parent
otherwise appears strictly earlier in `node_ids` (the `earlier` prefix). -/
def forestInvAux (s : StoreState) (root : String) : List String → List String → Bool
  | _, [] => true
  | earlier, i :: rest =>
      (match get_node s i with
       | none => false
       | some n =>
           n.id == i &&
           match n.parent_id with
           | none => n.id == root
           | some p => earlier.contains p) &&
      forestInvAux s root (earlier ++ [i]) rest

/-- The forest invariant of claim C5 for a whole store state. -/
def forest_inv (s : StoreState) : Bool :=
  forestInvAux s s.project.root_node_id [] s.project.node_ids

/-- A valid parent chain listed target-first: each node's (truthy) parent
pointer names the next entry and resolves to it in the store, and the final
entry is a root (`parent_id = None`). -/
def validChainRev (s : StoreState) : List VersionNode → Bool
  | [] => false
  | [n] => n.parent_id == none
  | n :: m :: rest =>
      truthyParent n == some m.id && (get_node s m.id == some m) &&
      validChainRev s (m :: rest)

/-- Test fixture: a version node with the given id and parent and default
remaining fields. -/
def mkNode (i : String) (parent : Option String) : VersionNode :=
  { id := i
    project_id := "p"
    parent_id := parent
    branch_name := "main"
    version := "1.0.0"
    commit_message := ""
    stage := StageType.input
    stage_index := 0
    artifact_path := none
    status := ArtifactStatus.pending
    metadata := []
    input_hash := none }

def nodeR : VersionNode := mkNode "r" none

def nodeC : VersionNode :=
  { mkNode "c" (some "r") with stage := StageType.script, stage_index := 1 }

def nodeA : VersionNode := mkNode "a" (some "b")

def nodeB : VersionNode := mkNode "b" (some "a")

def nodeC1 : VersionNode :=
  { mkNode "c1" (some "r") with
      status := ArtifactStatus.completed, artifact_path := some "old" }

/-- Test fixture: a store holding one root node `r` on branch `main`. -/
def storeOne : StoreState :=
  { project_id := "p"
    artifacts_dir := "projects/p/artifacts"
    project :=
      { id := "p"
        name := "Project p"
        description := ""
        root_node_id := "r"
        current_node_id := "r"
        node_ids := ["r"]
        branches := [("main", "r")]
        settings := [] }
    nodes := [("r", nodeR)]
    artifacts := [] }

/-- Test fixture: root `r` with child `c`, branch `main` at `c`. -/
def storeTwo : StoreState :=
  { storeOne with
      nodes := [("r", nodeR), ("c", nodeC)]
      project :=
        { storeOne.project with
            node_ids := ["r", "c"]
            current_node_id := "c"
            branches := [("main", "c")] } }

/-- Test fixture: root `r` plus a Completed child `c1` whose artifact
reference is `old`. -/
def storeCompleted : StoreState :=
  { storeOne with
      nodes := [("r", nodeR), ("c1", nodeC1)]
      project :=
        { storeOne.project with
            node_ids := ["r", "c1"]
            current_node_id := "c1"
            branches := [("main", "c1")] } }

/-- Test fixture: a corrupted store whose two nodes point at each other,
so the parent chain of `a` revisits `a`. -/
def cycStore : StoreState :=
  { project_id := "p"
    artifacts_dir := "projects/p/artifacts"
    project :=
      { id := "p"
        name := ""
        description := ""
        root_node_id := "a"
        current_node_id := "a"
        node_ids := ["a", "b"]
        branches := [("main", "a")]
        settings := [] }
    nodes := [("a", nodeA), ("b", nodeB)]
    artifacts := [] }

/-- A concrete stand-in for the SHA-256 hex digest used in witnesses; the
theorems hold for every digest function. -/
def idHash : String → String := fun s => s

/-- If every node of `C` has a truthy parent pointer that resolves to
another node of `C`, the `get_node_history` loop started anywhere in `C`
never finishes, whatever the fuel. -/
theorem historyLoop_closed_none (s : StoreState) (C : List VersionNode)
    (hC : ∀ n ∈ C, ∃ p, truthyParent n = some p ∧ ∃ m, get_node s p = some m ∧ m ∈ C) :
    ∀ (fuel : Nat) (n : VersionNode), n ∈ C → ∀ acc,
      historyLoop s fuel (some n) acc = none := by
  intro fuel
  induction fuel with
  | zero => intro n _ acc; rfl
  | succ f ih =>
      intro n hn acc
      obtain ⟨p, hp, m, hm, hmC⟩ := hC n hn
      show historyLoop s (f + 1) (some n) acc = none
      rw [historyLoop, hp]
      change historyLoop s f (get_node s p) (n :: acc) = none
      rw [hm]
      exact ih m hmC _

/-- Membership of both cycle nodes of `cycStore` in the closed set used by
the C1 theorems. -/
theorem cycClosure :
    ∀ n ∈ [nodeA, nodeB], ∃ p, truthyParent n = some p ∧
      ∃ m, get_node cycStore p = some m ∧ m ∈ [nodeA, nodeB] := by
  intro n hn
  rcases List.mem_cons.mp hn with rfl | hn
  · exact ⟨"b", by decide, nodeB, by decide, by simp⟩
  rcases List.mem_cons.mp hn with rfl | hn
  · exact ⟨"a", by decide, nodeA, by decide, by simp⟩
  · exact absurd hn (List.not_mem_nil n)

/-- C1 (counterexample).  The claim says that on a parent chain revisiting
an id, `get_node_history` fails with `CycleDetected`.  On the concrete
two-node cycle `a <-> b` it does neither that nor anything else: the
traversal loop never completes, under any fuel bound — the code contains no
visited-set check and no `CycleDetected` error exists in the repository. -/
theorem get_node_history_cycle_never_returns :
    ¬ ∃ fuel r, get_node_history cycStore "a" fuel = some r := by
  rintro ⟨fuel, r, hr⟩
  have h := historyLoop_closed_none cycStore [nodeA, nodeB] cycClosure fuel nodeA
    (by simp) []
  have hnone : get_node_history cycStore "a" fuel = none := by
    unfold get_node_history
    rw [(by decide : get_node cycStore "a" = some nodeA)]
    exact h
  rw [hnone] at hr
  exact Option.noConfusion hr

/-- C1 (amended): `get_node_history` performs no cycle detection and never
reports a `CycleDetected` failure; whenever the walk starts inside a set of
nodes each of whose truthy parent pointers resolves back into the set (as
happens on any parent chain that revisits an id), the loop does not
terminate: under every fuel bound the traversal is still incomplete. -/
theorem get_node_history_cycle_diverges (s : StoreState) (C : List VersionNode)
    (hC : ∀ n ∈ C, ∃ p, truthyParent n = some p ∧ ∃ m, get_node s p = some m ∧ m ∈ C)
    (node_id : String) (n0 : VersionNode)
    (h0 : get_node s node_id = some n0) (hn0 : n0 ∈ C) (fuel : Nat) :
    get_node_history s node_id fuel = none := by
  unfold get_node_history
  rw [h0]
  exact historyLoop_closed_none s C hC fuel n0 hn0 []

/-- Witness for C1's amended theorem at the concrete cyclic store. -/
theorem get_node_history_cycle_diverges_witness :
    get_node_history cycStore "a" 7 = none :=
  get_node_history_cycle_diverges cycStore [nodeA, nodeB] cycClosure "a" nodeA
    (by decide) (by simp) 7

/-- Walking a valid parent chain (`crev`, target first) consumes it whole:
with enough fuel the loop returns the chain reversed onto the
accumulator. -/
theorem historyLoop_chain (s : StoreState) :
    ∀ (crev : List VersionNode) (acc : List VersionNode) (fuel : Nat),
      validChainRev s crev = true → crev.length ≤ fuel →
      historyLoop s fuel crev.head? acc = some (crev.reverse ++ acc)
  | [], _, _, hv, _ => by simp [validChainRev] at hv
  | [n], acc, fuel, hv, hf => by
      simp only [List.length_cons, List.length_nil] at hf
      obtain ⟨f, rfl⟩ : ∃ f, fuel = f + 1 := ⟨fuel - 1, by omega⟩
      have hp : n.parent_id = none := by
        simpa [validChainRev] using hv
      simp [historyLoop, truthyParent, hp]
  | n :: m :: rest, acc, fuel, hv, hf => by
      simp only [List.length_cons] at hf
      obtain ⟨f, rfl⟩ : ∃ f, fuel = f + 1 := ⟨fuel - 1, by omega⟩
      simp only [validChainRev, Bool.and_eq_true, beq_iff_eq] at hv
      obtain ⟨⟨hp, hm⟩, hrest⟩ := hv
      have hlen : (m :: rest).length ≤ f := by
        simp only [List.length_cons] at hf ⊢
        omega
      show historyLoop s (f + 1) (some n) acc = _
      rw [historyLoop, hp]
      change historyLoop s f (get_node s m.id) (n :: acc) = _
      rw [hm]
      have ih := historyLoop_chain s (m :: rest) (n :: acc) f hrest hlen
      simp only [List.head?] at ih
      rw [ih]
      simp

/-- The last entry of a valid target-first chain is a root node. -/
theorem validChainRev_getLast (s : StoreState) :
    ∀ (crev : List VersionNode), validChainRev s crev = true →
      ∀ n, crev.getLast? = some n → n.parent_id = none
  | [], hv, _, _ => by simp [validChainRev] at hv
  | [n], hv, r, hr => by
      have hp : n.parent_id = none := by simpa [validChainRev] using hv
      simp only [List.getLast?] at hr
      cases hr
      exact hp
  | n :: m :: rest, hv, r, hr => by
      simp only [validChainRev, Bool.and_eq_true, beq_iff_eq] at hv
      have := validChainRev_getLast s (m :: rest) hv.2 r
      apply this
      simpa using hr

/-- C7: for a node whose parent chain is acyclic (given as `crev`, listed
target-first with pairwise-distinct ids) and ends at a node with
`parent_id = None`, `get_node_history` returns exactly the chain in
root-first order: it starts with the root, ends with the requested node,
has length depth+1 (the chain's length), and repeats no node. -/
theorem get_node_history_chain (s : StoreState) (node_id : String)
    (crev : List VersionNode) (fuel : Nat)
    (hv : validChainRev s crev = true)
    (hstart : get_node s node_id = crev.head?)
    (hids : (crev.map VersionNode.id).Nodup)
    (hfuel : crev.length ≤ fuel) :
    get_node_history s node_id fuel = some crev.reverse ∧
    crev.reverse.Nodup ∧
    (∀ rt, crev.reverse.head? = some rt → rt.parent_id = none) ∧
    crev.reverse.getLast? = get_node s node_id ∧
    crev.reverse.length = crev.length := by
  refine ⟨?_, ?_, ?_, ?_, ?_⟩
  · unfold get_node_history
    rw [hstart]
    simpa using historyLoop_chain s crev [] fuel hv hfuel
  · exact List.nodup_reverse.mpr (hids.of_map _)
  · intro rt hrt
    rw [List.head?_reverse] at hrt
    exact validChainRev_getLast s crev hv rt hrt
  · rw [List.getLast?_reverse]
    exact hstart.symm
  · exact List.length_reverse crev

/-- Witness for C7 on the concrete two-node store: the history of `c` is
the root-first chain `[r, c]`. -/
theorem get_node_history_chain_witness :
    get_node_history storeTwo "c" 5 = some [nodeR, nodeC] := by
  simpa using
    (get_node_history_chain storeTwo "c" [nodeC, nodeR] 5 (by decide) (by decide)
      (by decide) (by decide)).1

/-- Reading a node is unaffected by the artifacts directory. -/
theorem get_node_set_artifacts (s : StoreState) (a : List (String × ArtifactRecord))
    (nid : String) : get_node { s with artifacts := a } nid = get_node s nid := rfl

/-- C2 (counterexample).  On a store that already has a node, `create_node`
succeeds both with a `parent_id` that resolves to nothing (`ghost`) and
with `parent_id = None`, persisting the new node either way — it never
fails with `InvalidParent` and does not restrict `None` parents to the
first node. -/
theorem create_node_accepts_any_parent_cx :
    get_node storeOne "ghost" = none ∧
    storeOne.project.node_ids ≠ [] ∧
    (create_node storeOne StageType.script 1 (some "ghost") "main" "" none [] "n1").1.parent_id
      = some "ghost" ∧
    get_node (create_node storeOne StageType.script 1 (some "ghost") "main" "" none [] "n1").2
        "n1"
      = some (create_node storeOne StageType.script 1 (some "ghost") "main" "" none [] "n1").1 ∧
    (create_node storeOne StageType.script 1 none "main" "" none [] "n2").1.parent_id = none ∧
    get_node (create_node storeOne StageType.script 1 none "main" "" none [] "n2").2 "n2"
      = some (create_node storeOne StageType.script 1 none "main" "" none [] "n2").1 := by
  decide

/-- C2 (amended): `create_node` performs no parent validation.  Even when
`parent_id` resolves to no node it creates and persists the node with that
dangling parent pointer and appends its id to `node_ids`; no `InvalidParent`
failure exists. -/
theorem create_node_unvalidated_parent (s : StoreState) (stage : StageType) (idx : Int)
    (pid bname msg : String) (ihash : Option String) (md : List (String × JVal))
    (newId : String) (hp : get_node s pid = none) :
    (create_node s stage idx (some pid) bname msg ihash md newId).1.parent_id = some pid ∧
    get_node (create_node s stage idx (some pid) bname msg ihash md newId).2 newId =
      some (create_node s stage idx (some pid) bname msg ihash md newId).1 ∧
    (create_node s stage idx (some pid) bname msg ihash md newId).2.project.node_ids =
      s.project.node_ids ++ [newId] := by
  refine ⟨rfl, ?_, ?_⟩
  · exact lookupKV_insertKV_self newId
      (create_node s stage idx (some pid) bname msg ihash md newId).1 s.nodes
  · unfold create_node save_project save_node
    dsimp only
    split <;> rfl

/-- Witness for C2's amended theorem: the dangling parent `ghost` on the
concrete one-node store. -/
theorem create_node_unvalidated_parent_witness :
    (create_node storeOne StageType.script 1 (some "ghost") "main" "" none [] "n1").1.parent_id
      = some "ghost" ∧
    get_node (create_node storeOne StageType.script 1 (some "ghost") "main" "" none [] "n1").2
        "n1"
      = some (create_node storeOne StageType.script 1 (some "ghost") "main" "" none [] "n1").1 ∧
    (create_node storeOne StageType.script 1 (some "ghost") "main" "" none [] "n1").2.project.node_ids
      = storeOne.project.node_ids ++ ["n1"] :=
  create_node_unvalidated_parent storeOne StageType.script 1 "ghost" "main" "" none [] "n1"
    (by decide)

/-- C3 (counterexample).  `main` already points at `r`, yet
`create_branch(from=r, name=main)` succeeds and silently repoints `main` at
the new node `n2`: no `BranchAlreadyExists` failure, and `branches` does
not stay unchanged. -/
theorem create_branch_overwrite_cx :
    lookupKV "main" storeOne.project.branches = some "r" ∧
    (create_branch storeOne "r" "main" "" "n2").toOption.map
        (fun r => lookupKV "main" r.2.project.branches) = some (some "n2") := by
  decide

/-- C3 (amended): `create_branch` never checks the branch name.  Whenever
the source node resolves it succeeds — even for a name already present in
`branches` — and repoints that name's head at the new node (silent
overwrite). -/
theorem create_branch_overwrites_existing_name (s : StoreState)
    (from_id bname msg newId old_head : String) (fn : VersionNode)
    (hn : get_node s from_id = some fn)
    (hb : lookupKV bname s.project.branches = some old_head) :
    ∃ n s', create_branch s from_id bname msg newId = Except.ok (n, s') ∧
      lookupKV bname s'.project.branches = some newId := by
  unfold create_branch
  rw [hn]
  exact ⟨_, _, rfl, lookupKV_insertKV_self bname newId s.project.branches⟩

/-- Witness for C3's amended theorem on the concrete store whose `main`
branch already exists. -/
theorem create_branch_overwrites_existing_name_witness :
    ∃ n s', create_branch storeOne "r" "main" "" "n2" = Except.ok (n, s') ∧
      lookupKV "main" s'.project.branches = some "n2" :=
  create_branch_overwrites_existing_name storeOne "r" "main" "" "n2" "r" nodeR
    (by decide) (by decide)

/-- C4 (counterexample).  `c1` is already Completed with artifact reference
`old`, yet a later `save_artifact` for the same node rewrites its
`artifact_path` to the newly derived artifact id — the artifact reference
of a Completed node is not immutable, and no new node is created for the
regeneration. -/
theorem save_artifact_mutates_completed_cx :
    get_node storeCompleted "c1" = some nodeC1 ∧
    nodeC1.status = ArtifactStatus.completed ∧
    nodeC1.artifact_path = some "old" ∧
    (get_node (save_artifact idHash storeCompleted "c1" StageType.script "script"
        (JVal.str "y") "" none none).2 "c1").map VersionNode.artifact_path =
      some (some "script_script_\"y\"") ∧
    ("script_script_\"y\"" : String) ≠ "old" := by
  decide

/-- C4 (amended): `save_artifact` on a resolving node unconditionally
overwrites the node in place: its `artifact_path` becomes the newly derived
content address and its status Completed, even when the node was already
Completed with a different artifact reference (regeneration mutates the
node instead of creating a new one). -/
theorem save_artifact_remarks_completed_node (h : String → String) (s : StoreState)
    (node_id : String) (node : VersionNode) (stage : StageType) (atype : String)
    (data : JVal) (summary : String) (pv : Option String) (deps : Option (List String))
    (hn : get_node s node_id = some node) (hid : node.id = node_id)
    (hst : node.status = ArtifactStatus.completed) :
    get_node (save_artifact h s node_id stage atype data summary pv deps).2 node_id =
      some { node with artifact_path := some (artifact_id_of h stage atype data),
                       status := ArtifactStatus.completed } := by
  unfold save_artifact
  dsimp only
  split
  · next nd hnd =>
      have hnd2 : get_node s node_id = some nd := hnd
      rw [hn] at hnd2
      injection hnd2 with hnd2
      subst hnd2
      unfold save_node
      dsimp only
      rw [hid]
      exact lookupKV_insertKV_self node_id _ s.nodes
  · next hnone =>
      have hnone2 : get_node s node_id = none := hnone
      rw [hn] at hnone2
      exact Option.noConfusion hnone2

/-- Witness for C4's amended theorem on the Completed node `c1`. -/
theorem save_artifact_remarks_completed_node_witness :
    get_node (save_artifact idHash storeCompleted "c1" StageType.script "script"
        (JVal.str "y") "" none none).2 "c1" =
      some { nodeC1 with
               artifact_path := some (artifact_id_of idHash StageType.script "script"
                 (JVal.str "y"))
               status := ArtifactStatus.completed } :=
  save_artifact_remarks_completed_node idHash storeCompleted "c1" nodeC1 StageType.script
    "script" (JVal.str "y") "" none none (by decide) (by decide) (by decide)

/-- Checking an appended id list splits into the two parts, the second
checked against the longer prefix. -/
theorem forestInvAux_append (s : StoreState) (root : String) :
    ∀ (l1 l2 e : List String),
      forestInvAux s root e (l1 ++ l2) =
        (forestInvAux s root e l1 && forestInvAux s root (e ++ l1) l2)
  | [], l2, e => by simp [forestInvAux]
  | i :: l1, l2, e => by
      simp only [List.cons_append, forestInvAux, List.append_eq]
      rw [forestInvAux_append s root l1 l2 (e ++ [i])]
      rw [List.append_assoc]
      simp [Bool.and_assoc]

/-- The invariant check reads nodes only through `get_node`, so two states
that agree on the listed ids check identically. -/
theorem forestInvAux_congr (s s' : StoreState) (root : String) :
    ∀ (l e : List String),
      (∀ i ∈ l, get_node s' i = get_node s i) →
      forestInvAux s' root e l = forestInvAux s root e l
  | [], _, _ => rfl
  | i :: l, e, hcong => by
      simp only [forestInvAux]
      rw [hcong i (by simp),
        forestInvAux_congr s s' root l (e ++ [i]) (fun j hj => hcong j (by simp [hj]))]

/-- Appending one fresh node whose parent is an already-listed id keeps
the forest invariant. -/
theorem forest_inv_extend (s s' : StoreState) (newId : String) (newNode : VersionNode)
    (hnodes : s'.nodes = insertKV newId newNode s.nodes)
    (hids : s'.project.node_ids = s.project.node_ids ++ [newId])
    (hrootEq : s'.project.root_node_id = s.project.root_node_id)
    (hfresh : newId ∉ s.project.node_ids)
    (hinv : forest_inv s = true)
    (hnid : newNode.id = newId)
    (hparent : ∃ p, newNode.parent_id = some p ∧ p ∈ s.project.node_ids) :
    forest_inv s' = true := by
  obtain ⟨p, hpar, hpmem⟩ := hparent
  unfold forest_inv
  rw [hids, hrootEq]
  rw [forestInvAux_append s' s.project.root_node_id s.project.node_ids [newId] []]
  have hagree : ∀ i ∈ s.project.node_ids, get_node s' i = get_node s i := by
    intro i hi
    have hne : i ≠ newId := fun he => hfresh (he ▸ hi)
    show lookupKV i s'.nodes = lookupKV i s.nodes
    rw [hnodes]
    exact lookupKV_insertKV_ne newId i newNode hne s.nodes
  rw [forestInvAux_congr s s' s.project.root_node_id s.project.node_ids [] hagree]
  have hold : forestInvAux s s.project.root_node_id [] s.project.node_ids = true := hinv
  rw [hold]
  have hlook : get_node s' newId = some newNode := by
    show lookupKV newId s'.nodes = some newNode
    rw [hnodes]
    exact lookupKV_insertKV_self newId newNode s.nodes
  simp only [Bool.true_and, forestInvAux, hlook, hpar, hnid, List.nil_append]
  simp [hpmem]

/-- A store holding exactly one node, which is the root, satisfies the
forest invariant. -/
theorem forest_inv_first (t t' : StoreState) (newId : String) (newNode : VersionNode)
    (hnodes : t'.nodes = insertKV newId newNode t.nodes)
    (hids : t'.project.node_ids = [newId])
    (hroot : t'.project.root_node_id = newId)
    (hnid : newNode.id = newId)
    (hpar : newNode.parent_id = none) :
    forest_inv t' = true := by
  unfold forest_inv
  rw [hids, hroot]
  have hlook : get_node t' newId = some newNode := by
    show lookupKV newId t'.nodes = some newNode
    rw [hnodes]
    exact lookupKV_insertKV_self newId newNode t.nodes
  simp [forestInvAux, hlook, hnid, hpar]

/-- C5 (counterexample).  `storeOne` satisfies the forest invariant, but
`create_node` with `parent_id = None` on this nonempty project yields a
state that violates it: the new node has no parent yet is not the root. -/
theorem forest_inv_violated_cx :
    forest_inv storeOne = true ∧
    forest_inv (create_node storeOne StageType.script 1 none "main" "" none [] "x").2
      = false := by
  decide

/-- C5 (amended): the store operations preserve the forest invariant only
under caller-side preconditions that the code never checks — `create_node`
when the given parent id is already listed in `node_ids` and the fresh id is
unused (or, with `parent_id = None`, when the project is empty with unset
root), and `create_branch` when the source id is listed and the fresh id
unused.  Without them the invariant can be violated (see the
counterexample). -/
theorem forest_inv_preserved_with_valid_args
    (s : StoreState) (hinv : forest_inv s = true) (hroot : s.project.root_node_id ≠ "")
    (stage : StageType) (idx : Int) (bname msg : String) (ihash : Option String)
    (md : List (String × JVal)) (pid newId1 : String)
    (hp : pid ∈ s.project.node_ids) (hf1 : newId1 ∉ s.project.node_ids)
    (from_id bname2 msg2 newId2 : String)
    (hfm : from_id ∈ s.project.node_ids) (hf2 : newId2 ∉ s.project.node_ids) :
    forest_inv (create_node s stage idx (some pid) bname msg ihash md newId1).2 = true ∧
    (∀ n s', create_branch s from_id bname2 msg2 newId2 = Except.ok (n, s') →
       forest_inv s' = true) ∧
    (∀ (t : StoreState) (newId : String), t.project.node_ids = [] →
       t.project.root_node_id = "" →
       forest_inv (create_node t stage idx none bname msg ihash md newId).2 = true) := by
  refine ⟨?_, ?_, ?_⟩
  · apply forest_inv_extend s _ newId1
      (create_node s stage idx (some pid) bname msg ihash md newId1).1
    · rfl
    · unfold create_node save_project save_node
      dsimp only
      split <;> rfl
    · unfold create_node save_project save_node
      dsimp only
      rw [if_neg hroot]
    · exact hf1
    · exact hinv
    · rfl
    · exact ⟨pid, rfl, hp⟩
  · intro n s' hok
    cases hg : get_node s from_id with
    | none =>
        unfold create_branch at hok
        rw [hg] at hok
        exact Except.noConfusion hok
    | some fn =>
        unfold create_branch at hok
        rw [hg] at hok
        injection hok with hok
        injection hok with h1 h2
        subst h1
        subst h2
        exact forest_inv_extend s _ newId2 _ rfl rfl rfl hf2 hinv rfl ⟨from_id, rfl, hfm⟩
  · intro t newId htids htroot
    apply forest_inv_first t _ newId
      (create_node t stage idx none bname msg ihash md newId).1
    · rfl
    · unfold create_node save_project save_node
      dsimp only
      rw [htroot, if_pos rfl]
      dsimp only
      rw [htids]
      rfl
    · unfold create_node save_project save_node
      dsimp only
      rw [htroot, if_pos rfl]
    · rfl
    · rfl

/-- Witness for C5's amended theorem: extending `storeOne` from parent `r`
with the fresh id `x` keeps the invariant. -/
theorem forest_inv_preserved_witness :
    forest_inv (create_node storeOne StageType.script 1 (some "r") "main" "" none [] "x").2
      = true :=
  (forest_inv_preserved_with_valid_args storeOne (by decide) (by decide) StageType.script 1
    "main" "" none [] "r" "x" (by decide) (by decide) "r" "alt" "" "y" (by decide)
    (by decide)).1

theorem renderPairs_eq_map :
    ∀ kvs : List (String × JVal), renderPairs kvs = kvs.map (fun kv => (kv.1, dumps kv.2))
  | [] => rfl
  | (k, v) :: kvs => by simp [renderPairs, renderPairs_eq_map kvs]

instance : IsTotal (String × String) (fun a b => a.1 ≤ b.1) :=
  ⟨fun a b => le_total a.1 b.1⟩

instance : IsTrans (String × String) (fun a b => a.1 ≤ b.1) :=
  ⟨fun _ _ _ => le_trans⟩

/-- Two key-sorted lists of pairs that are permutations of one another and
have pairwise-distinct keys are equal. -/
theorem keyed_sorted_perm_eq {α : Type} :
    ∀ (l1 l2 : List (String × α)), l1.Perm l2 → (l1.map Prod.fst).Nodup →
      l1.Pairwise (fun a b => a.1 ≤ b.1) → l2.Pairwise (fun a b => a.1 ≤ b.1) → l1 = l2
  | [], l2, hp, _, _, _ => hp.symm.eq_nil.symm
  | a :: t1, l2, hp, hn, hs1, hs2 => by
      cases l2 with
      | nil =>
          have := hp.eq_nil
          simp at this
      | cons b t2 =>
          have hab : a = b := by
            have ha2 : a ∈ b :: t2 := hp.mem_iff.mp (List.mem_cons_self a t1)
            have hb1 : b ∈ a :: t1 := hp.mem_iff.mpr (List.mem_cons_self b t2)
            rcases List.mem_cons.mp ha2 with h | hat2
            · exact h
            rcases List.mem_cons.mp hb1 with h | hbt1
            · exact h.symm
            have h1 : a.1 ≤ b.1 := (List.pairwise_cons.mp hs1).1 b hbt1
            have h2 : b.1 ≤ a.1 := (List.pairwise_cons.mp hs2).1 a hat2
            have hkey : a.1 = b.1 := le_antisymm h1 h2
            have hmem : a.1 ∈ t1.map Prod.fst := by
              rw [hkey]
              exact List.mem_map_of_mem Prod.fst hbt1
            have hn2 : (a.1 :: t1.map Prod.fst).Nodup := by simpa using hn
            exact absurd hmem (List.nodup_cons.mp hn2).1
          subst hab
          have ht := hp.cons_inv
          have hn2 : (a.1 :: t1.map Prod.fst).Nodup := by simpa using hn
          have := keyed_sorted_perm_eq t1 t2 ht (List.nodup_cons.mp hn2).2
            (List.pairwise_cons.mp hs1).2 (List.pairwise_cons.mp hs2).2
          rw [this]

/-- Canonicalization: serializing a mapping is independent of key insertion
order (for distinct keys), because `sort_keys=True` sorts each mapping. -/
theorem dumps_obj_perm (kvs1 kvs2 : List (String × JVal)) (hperm : kvs1.Perm kvs2)
    (hnd : (kvs1.map Prod.fst).Nodup) :
    dumps (JVal.obj kvs1) = dumps (JVal.obj kvs2) := by
  have hr : (renderPairs kvs1).Perm (renderPairs kvs2) := by
    rw [renderPairs_eq_map, renderPairs_eq_map]
    exact hperm.map _
  have hkeys1 : (renderPairs kvs1).map Prod.fst = kvs1.map Prod.fst := by
    rw [renderPairs_eq_map, List.map_map]
    rfl
  have hnd1 : ((renderPairs kvs1).map Prod.fst).Nodup := by
    rw [hkeys1]
    exact hnd
  have hs1 : (sortPairs (renderPairs kvs1)).Pairwise
      (fun a b : String × String => a.1 ≤ b.1) :=
    List.sorted_insertionSort _ _
  have hs2 : (sortPairs (renderPairs kvs2)).Pairwise
      (fun a b : String × String => a.1 ≤ b.1) :=
    List.sorted_insertionSort _ _
  have hperm12 : (sortPairs (renderPairs kvs1)).Perm (sortPairs (renderPairs kvs2)) :=
    ((List.perm_insertionSort _ _).trans hr).trans (List.perm_insertionSort _ _).symm
  have hnds : ((sortPairs (renderPairs kvs1)).map Prod.fst).Nodup := by
    have hpm : ((sortPairs (renderPairs kvs1)).map Prod.fst).Perm
        ((renderPairs kvs1).map Prod.fst) :=
      (List.perm_insertionSort _ _).map _
    exact hpm.nodup_iff.mpr hnd1
  have heq : sortPairs (renderPairs kvs1) = sortPairs (renderPairs kvs2) :=
    keyed_sorted_perm_eq _ _ hperm12 hnds hs1 hs2
  simp [dumps, heq]

/-- The artifacts directory path of the store is untouched by
`save_artifact`. -/
theorem save_artifact_artifacts_dir (h : String → String) (s : StoreState) (nid : String)
    (stage : StageType) (atype : String) (data : JVal) (summary : String)
    (pv : Option String) (deps : Option (List String)) :
    (save_artifact h s nid stage atype data summary pv deps).2.artifacts_dir =
      s.artifacts_dir := by
  unfold save_artifact
  dsimp only
  split
  · rfl
  · rfl

/-- C6: content-addressed deduplication.  (i) Two payloads that are equal
as mappings but differ in key insertion order get the identical derived
`artifact_id`; (ii) hence two such `save_artifact` calls report the same
`file_path` (storage location); (iii) two different nodes saving the
byte-identical payload for the same stage and type — the second on the
store produced by the first — report the same storage location. -/
theorem save_artifact_content_addressed (h : String → String) (s : StoreState)
    (nid1 nid2 : String) (stage : StageType) (atype : String)
    (sum1 sum2 : String) (pv1 pv2 : Option String) (dep1 dep2 : Option (List String))
    (kvs1 kvs2 : List (String × JVal)) (data : JVal)
    (hperm : kvs1.Perm kvs2) (hnd : (kvs1.map Prod.fst).Nodup) :
    artifact_id_of h stage atype (JVal.obj kvs1) =
      artifact_id_of h stage atype (JVal.obj kvs2) ∧
    (save_artifact h s nid1 stage atype (JVal.obj kvs1) sum1 pv1 dep1).1.file_path =
      (save_artifact h s nid1 stage atype (JVal.obj kvs2) sum1 pv1 dep1).1.file_path ∧
    (save_artifact h s nid1 stage atype data sum1 pv1 dep1).1.file_path =
      (save_artifact h (save_artifact h s nid1 stage atype data sum1 pv1 dep1).2 nid2 stage
        atype data sum2 pv2 dep2).1.file_path := by
  have hd : dumps (JVal.obj kvs1) = dumps (JVal.obj kvs2) :=
    dumps_obj_perm kvs1 kvs2 hperm hnd
  have hid : artifact_id_of h stage atype (JVal.obj kvs1) =
      artifact_id_of h stage atype (JVal.obj kvs2) := by
    unfold artifact_id_of compute_hash
    rw [hd]
  refine ⟨hid, ?_, ?_⟩
  · show data_file_of s (artifact_id_of h stage atype (JVal.obj kvs1)) =
      data_file_of s (artifact_id_of h stage atype (JVal.obj kvs2))
    rw [hid]
  · show data_file_of s (artifact_id_of h stage atype data) =
      data_file_of (save_artifact h s nid1 stage atype data sum1 pv1 dep1).2
        (artifact_id_of h stage atype data)
    unfold data_file_of
    rw [save_artifact_artifacts_dir]

/-- Witness for C6: flipping the insertion order of a two-key mapping gives
the same derived artifact id. -/
theorem save_artifact_content_addressed_witness :
    artifact_id_of idHash StageType.script "script"
        (JVal.obj [("a", JVal.num 1), ("b", JVal.num 2)]) =
      artifact_id_of idHash StageType.script "script"
        (JVal.obj [("b", JVal.num 2), ("a", JVal.num 1)]) :=
  (save_artifact_content_addressed idHash storeOne "n1" "n2" StageType.script "script" "" ""
    none none none none [("a", JVal.num 1), ("b", JVal.num 2)]
    [("b", JVal.num 2), ("a", JVal.num 1)] JVal.null (by decide) (by decide)).1

/-- C8: a successful `create_branch` with an unused name maps the name to a
new node that is a child of the source node and copies its `stage`,
`stage_index`, `artifact_path`, `status` and `input_hash`. -/
theorem create_branch_copies_source (s : StoreState) (from_id bname msg newId : String)
    (fn : VersionNode) (hn : get_node s from_id = some fn)
    (hb : lookupKV bname s.project.branches = none) :
    ∃ n s', create_branch s from_id bname msg newId = Except.ok (n, s') ∧
      lookupKV bname s'.project.branches = some newId ∧
      get_node s' newId = some n ∧
      n.id = newId ∧ n.parent_id = some from_id ∧ n.stage = fn.stage ∧
      n.stage_index = fn.stage_index ∧ n.artifact_path = fn.artifact_path ∧
      n.status = fn.status ∧ n.input_hash = fn.input_hash := by
  unfold create_branch
  rw [hn]
  refine ⟨_, _, rfl, lookupKV_insertKV_self bname newId s.project.branches, ?_, rfl, rfl,
    rfl, rfl, rfl, rfl, rfl⟩
  exact lookupKV_insertKV_self newId _ s.nodes

/-- Witness for C8 on `storeOne` with the unused name `alt`. -/
theorem create_branch_copies_source_witness :
    ∃ n s', create_branch storeOne "r" "alt" "" "n2" = Except.ok (n, s') ∧
      lookupKV "alt" s'.project.branches = some "n2" ∧
      get_node s' "n2" = some n ∧
      n.id = "n2" ∧ n.parent_id = some "r" ∧ n.stage = nodeR.stage ∧
      n.stage_index = nodeR.stage_index ∧ n.artifact_path = nodeR.artifact_path ∧
      n.status = nodeR.status ∧ n.input_hash = nodeR.input_hash :=
  create_branch_copies_source storeOne "r" "alt" "" "n2" nodeR (by decide) (by decide)

/-- C9: `save_artifact` with a `node_id` that resolves to no node does not
fail: it still persists the artifact bundle and returns the metadata (with
the requested `node_id` and the derived storage location), while leaving
the node directory entirely unchanged. -/
theorem save_artifact_missing_node (h : String → String) (s : StoreState) (node_id : String)
    (stage : StageType) (atype : String) (data : JVal) (summary : String)
    (pv : Option String) (deps : Option (List String))
    (hn : get_node s node_id = none) :
    (save_artifact h s node_id stage atype data summary pv deps).2.nodes = s.nodes ∧
    (lookupKV (artifact_id_of h stage atype data)
        (save_artifact h s node_id stage atype data summary pv deps).2.artifacts).map
      ArtifactRecord.meta =
      some (save_artifact h s node_id stage atype data summary pv deps).1 ∧
    (lookupKV (artifact_id_of h stage atype data)
        (save_artifact h s node_id stage atype data summary pv deps).2.artifacts).map
      ArtifactRecord.data = some data ∧
    (save_artifact h s node_id stage atype data summary pv deps).1.node_id = node_id ∧
    (save_artifact h s node_id stage atype data summary pv deps).1.file_path =
      data_file_of s (artifact_id_of h stage atype data) := by
  unfold save_artifact
  dsimp only
  split
  · next nd hnd =>
      have hnd2 : get_node s node_id = some nd := hnd
      rw [hn] at hnd2
      exact Option.noConfusion hnd2
  · refine ⟨rfl, ?_, ?_, rfl, rfl⟩
    · rw [lookupKV_insertKV_self]
      rfl
    · rw [lookupKV_insertKV_self]
      rfl

/-- Witness for C9: saving against the unknown node id `missing` leaves
the node directory of `storeOne` unchanged. -/
theorem save_artifact_missing_node_witness :
    (save_artifact idHash storeOne "missing" StageType.script "script" JVal.null "" none
      none).2.nodes = storeOne.nodes :=
  (save_artifact_missing_node idHash storeOne "missing" StageType.script "script" JVal.null
    "" none none (by decide)).1

/-- C10: a successful `create_branch` leaves `current_node_id`,
`root_node_id`, and every other project field except `node_ids` (which gets
the new id appended) and the `branches` entry for the new name unchanged;
branch pointers under other names are untouched. -/
theorem create_branch_frame (s : StoreState) (from_id bname msg newId : String)
    (fn : VersionNode) (hn : get_node s from_id = some fn) :
    ∃ n s', create_branch s from_id bname msg newId = Except.ok (n, s') ∧
      s'.project.current_node_id = s.project.current_node_id ∧
      s'.project.root_node_id = s.project.root_node_id ∧
      s'.project.node_ids = s.project.node_ids ++ [newId] ∧
      s'.project.branches = insertKV bname newId s.project.branches ∧
      s'.project.name = s.project.name ∧
      s'.project.description = s.project.description ∧
      s'.project.settings = s.project.settings ∧
      s'.project.id = s.project.id ∧
      s'.artifacts = s.artifacts ∧
      (∀ b, b ≠ bname → lookupKV b s'.project.branches = lookupKV b s.project.branches) := by
  unfold create_branch
  rw [hn]
  refine ⟨_, _, rfl, rfl, rfl, rfl, rfl, rfl, rfl, rfl, rfl, rfl, ?_⟩
  intro b hb
  exact lookupKV_insertKV_ne bname b newId hb s.project.branches

/-- Witness for C10 on `storeOne`: branching `alt` off `r` keeps the HEAD
and root pointers and the `main` branch pointer. -/
theorem create_branch_frame_witness :
    ∃ n s', create_branch storeOne "r" "alt" "" "n2" = Except.ok (n, s') ∧
      s'.project.current_node_id = storeOne.project.current_node_id ∧
      s'.project.root_node_id = storeOne.project.root_node_id ∧
      s'.project.node_ids = storeOne.project.node_ids ++ ["n2"] ∧
      s'.project.branches = insertKV "alt" "n2" storeOne.project.branches ∧
      s'.project.name = storeOne.project.name ∧
      s'.project.description = storeOne.project.description ∧
      s'.project.settings = storeOne.project.settings ∧
      s'.project.id = storeOne.project.id ∧
      s'.artifacts = storeOne.artifacts ∧
      (∀ b, b ≠ "alt" →
        lookupKV b s'.project.branches = lookupKV b storeOne.project.branches) :=
  create_branch_frame storeOne "r" "alt" "" "n2" nodeR (by decide)
